import Mathlib

/-!
Verification development for the `codereviewer` PR-review backend.

The definitions below are a shallow embedding of the Python sources:

* `app/ai_orchestrator.py` — `KeyRotator`, `AIOrchestrator._try_grok`,
  `AIOrchestrator._try_gemini`, `AIOrchestrator.generate`.  External
  provider calls are resolved by an oracle (`Nat → Outcome`) giving the
  outcome of the n-th API call of that provider.
* `app/agents.py` — `fetch_raw_file`, `apply_patch_to_content` (which
  shells out to `git apply`; the external tool is modelled as a
  unified-diff hunk applier), `run_linter`, `run_multi_agent_review`,
  `analyze_full_code`.  `json.loads` is modelled by a small executable
  JSON parser; network, the linter process and the LLM are oracles.
-/

/-! ## A model of Python JSON values and `json.loads`

`json.loads` is the Python standard library parser.  The model below is a
strict recursive-descent parser over the characters of the input.  Scope
notes: numbers are restricted to (signed) decimal integers and the
`\uXXXX` string escape is not modelled; every input used in a theorem of
this file stays inside this fragment. -/

inductive Json where
  | null : Json
  | bool (b : Bool) : Json
  | num (n : Int) : Json
  | str (s : String) : Json
  | arr (xs : List Json) : Json
  | obj (kvs : List (String × Json)) : Json
deriving Inhabited

/-- JSON whitespace characters accepted by `json.loads`. -/
def isJsonWs (c : Char) : Bool :=
  c == ' ' || c == '\t' || c == '\n' || c == '\x0d'

def skipWs (cs : List Char) : List Char :=
  cs.dropWhile isJsonWs

/-- String-escape decoding (`\uXXXX` deliberately out of scope). -/
def escChar : Char → Option Char
  | 'n' => some '\n'
  | 't' => some '\t'
  | 'r' => some '\x0d'
  | 'b' => some '\x08'
  | 'f' => some '\x0c'
  | '"' => some '"'
  | '/' => some '/'
  | '\\' => some '\\'
  | _ => none

/-- Body of a JSON string literal, after the opening quote. -/
def parseStrBody : List Char → Option (List Char × List Char)
  | [] => none
  | '\\' :: c :: r =>
    match escChar c, parseStrBody r with
    | some e, some (s, rest) => some (e :: s, rest)
    | _, _ => none
  | '"' :: r => some ([], r)
  | c :: r =>
    match parseStrBody r with
    | some (s, rest) => some (c :: s, rest)
    | none => none

def digitsToNat (ds : List Char) : Nat :=
  ds.foldl (fun a c => a * 10 + (c.toNat - 48)) 0

/-- Decimal integer literal (sign handled by the caller). -/
def parseNat (cs : List Char) : Option (Nat × List Char) :=
  let ds := cs.takeWhile Char.isDigit
  let rest := cs.dropWhile Char.isDigit
  if ds.isEmpty then none else some (digitsToNat ds, rest)

mutual

/-- One JSON value, returning the unconsumed remainder. -/
def parseVal : Nat → List Char → Option (Json × List Char)
  | 0, _ => none
  | f + 1, cs =>
    match skipWs cs with
    | 'n' :: 'u' :: 'l' :: 'l' :: r => some (.null, r)
    | 't' :: 'r' :: 'u' :: 'e' :: r => some (.bool true, r)
    | 'f' :: 'a' :: 'l' :: 's' :: 'e' :: r => some (.bool false, r)
    | '"' :: r =>
      match parseStrBody r with
      | some (s, rest) => some (.str (String.mk s), rest)
      | none => none
    | '[' :: r =>
      match skipWs r with
      | ']' :: rest => some (.arr [], rest)
      | r2 =>
        match parseElems f r2 with
        | some (l, rest) => some (.arr l, rest)
        | none => none
    | '\x7b' :: r =>
      match skipWs r with
      | '\x7d' :: rest => some (.obj [], rest)
      | r2 =>
        match parseMembers f r2 with
        | some (l, rest) => some (.obj l, rest)
        | none => none
    | '-' :: r =>
      match parseNat r with
      | some (n, rest) => some (.num (-(n : Int)), rest)
      | none => none
    | c :: r =>
      if c.isDigit then
        match parseNat (c :: r) with
        | some (n, rest) => some (.num (n : Int), rest)
        | none => none
      else none
    | [] => none

/-- Comma-separated array elements, consuming the closing bracket. -/
def parseElems : Nat → List Char → Option (List Json × List Char)
  | 0, _ => none
  | f + 1, cs =>
    match parseVal f cs with
    | none => none
    | some (v, r) =>
      match skipWs r with
      | ',' :: r2 =>
        match parseElems f r2 with
        | some (l, rest) => some (v :: l, rest)
        | none => none
      | ']' :: r2 => some ([v], r2)
      | _ => none

/-- Comma-separated object members, consuming the closing brace. -/
def parseMembers : Nat → List Char → Option (List (String × Json) × List Char)
  | 0, _ => none
  | f + 1, cs =>
    match skipWs cs with
    | '"' :: r =>
      match parseStrBody r with
      | none => none
      | some (k, r1) =>
        match skipWs r1 with
        | ':' :: r2 =>
          match parseVal f r2 with
          | none => none
          | some (v, r3) =>
            match skipWs r3 with
            | ',' :: r4 =>
              match parseMembers f r4 with
              | some (l, rest) => some ((String.mk k, v) :: l, rest)
              | none => none
            | '\x7d' :: r4 => some ([(String.mk k, v)], r4)
            | _ => none
        | _ => none
    | _ => none

end

/-- Model of Python `json.loads`: parse one value, require only
whitespace after it; any failure is `none` (Python: `JSONDecodeError`). -/
def loads (s : String) : Option Json :=
  let cs := s.toList
  match parseVal (2 * cs.length + 2) cs with
  | some (v, rest) => if (skipWs rest).isEmpty then some v else none
  | none => none

example : loads "\x7b\"a\": 1\x7d" = some (.obj [("a", .num 1)]) := rfl
example : loads "" = none := rfl
example : loads " [1, \"x\", null] " = some (.arr [.num 1, .str "x", .null]) := rfl
example : loads "\x7b\"a\": 1\x7d y" = none := rfl

/-! ## Credential rotator (`KeyRotator`, ai_orchestrator.py lines 41-58)

`get_next` returns the key at `current_index` and advances the cursor
with wraparound; `reset` rewinds the cursor.  The source indexes
`self.keys[self.current_index]` directly; the model uses `List.get?`,
which agrees on every state reachable from a fresh rotator (the cursor
always stays below the pool size there). -/

structure KeyRotator where
  keys : List String
  current_index : Nat
deriving DecidableEq, Repr

def KeyRotator.get_next (r : KeyRotator) : Option String × KeyRotator :=
  if r.keys.isEmpty then (none, r)
  else (r.keys.get? r.current_index,
        { r with current_index := (r.current_index + 1) % r.keys.length })

def KeyRotator.reset (r : KeyRotator) : KeyRotator :=
  { r with current_index := 0 }

/-- The rotator after `n` successive `get_next` calls. -/
def rotAdvance : Nat → KeyRotator → KeyRotator
  | 0, r => r
  | n + 1, r => rotAdvance n (r.get_next).2

/-- Result of the n-th (0-indexed) `get_next` call on a fresh rotator
over `keys` (the pipeline constructs rotators with cursor 0). -/
def nthKey (keys : List String) (n : Nat) : Option String :=
  ((rotAdvance n ⟨keys, 0⟩).get_next).1

theorem rotAdvance_keys (n : Nat) (r : KeyRotator) :
    (rotAdvance n r).keys = r.keys := by
  induction n generalizing r with
  | zero => rfl
  | succ n ih =>
    unfold rotAdvance KeyRotator.get_next
    by_cases h : r.keys.isEmpty <;> simp [h, ih]

theorem rotAdvance_index (n : Nat) :
    ∀ r : KeyRotator, r.keys ≠ [] → r.current_index < r.keys.length →
      (rotAdvance n r).current_index = (r.current_index + n) % r.keys.length := by
  induction n with
  | zero =>
    intro r hne hidx
    simp [rotAdvance, Nat.mod_eq_of_lt hidx]
  | succ n ih =>
    intro r hne hidx
    have hb : r.keys.isEmpty = false := by simp [List.isEmpty_iff, hne]
    have hlen : 0 < r.keys.length := List.length_pos.mpr hne
    show (rotAdvance n (r.get_next).2).current_index = _
    have h2 : (r.get_next).2
        = { r with current_index := (r.current_index + 1) % r.keys.length } := by
      simp [KeyRotator.get_next, hb]
    rw [h2]
    rw [ih { r with current_index := (r.current_index + 1) % r.keys.length }
          hne (Nat.mod_lt _ hlen)]
    show ((r.current_index + 1) % r.keys.length + n) % r.keys.length = _
    rw [Nat.mod_add_mod]
    congr 1
    omega

theorem nthKey_eq (keys : List String) (n : Nat) (hne : keys ≠ []) :
    nthKey keys n = keys.get? (n % keys.length) := by
  have hb : keys.isEmpty = false := by simp [List.isEmpty_iff, hne]
  have hlen : 0 < keys.length := List.length_pos.mpr hne
  unfold nthKey KeyRotator.get_next
  rw [rotAdvance_keys, rotAdvance_index n ⟨keys, 0⟩ hne hlen]
  simp [hb]

/-! ## Generation orchestrator (`AIOrchestrator`, ai_orchestrator.py)

A provider API call either raises an exception (`raises`, with a flag
recording whether the error was quota-specific — the source's
`except Exception` never inspects it) or returns, carrying the
completion content: `returns none` models a `None` content,
`returns (some s)` a string (possibly empty).  The outcome of the n-th
call of a provider is given by an oracle `Nat → Outcome`.  Each
per-provider attempt trace records the credential drawn from the
rotator for that call. -/

inductive Outcome where
  | raises (quota : Bool) : Outcome
  | returns (content : Option String) : Outcome
deriving DecidableEq, Repr

/-- Forget which failures were quota-specific. -/
def Outcome.quotaBlind : Outcome → Outcome
  | .raises _ => .raises false
  | o => o

structure Env where
  grok : Nat → Outcome
  gem : Nat → Outcome

/-- Python truthiness of an `Optional[str]` (`if result:`). -/
def truthy : Option String → Bool
  | none => false
  | some s => !(s == "")

/-- The `for attempt in range(len(KEYS))` loop shared by `_try_grok`
(lines 93-120) and `_try_gemini` (lines 131-151): draw a key from the
rotator, make the call; on an exception continue with the next key, on
a return hand the content back immediately.  Returns the result, the
rotator, the next call number and the list of keys attempted. -/
def tryKeys (env : Nat → Outcome) :
    Nat → KeyRotator → Nat → Option String × KeyRotator × Nat × List (Option String)
  | 0, rot, cnt => (none, rot, cnt, [])
  | fuel + 1, rot, cnt =>
    match env cnt with
    | .returns c => (c, (rot.get_next).2, cnt + 1, [(rot.get_next).1])
    | .raises _ =>
      let t := tryKeys env fuel (rot.get_next).2 (cnt + 1)
      (t.1, t.2.1, t.2.2.1, (rot.get_next).1 :: t.2.2.2)

/-- `_try_grok` / `_try_gemini`: if the provider has no keys it is
disabled (`grok_enabled`/`gemini_enabled`) and no call is made;
otherwise each key is tried once in rotation order. -/
def tryProvider (env : Nat → Outcome) (rot : KeyRotator) (cnt : Nat) :
    Option String × KeyRotator × Nat × List (Option String) :=
  if rot.keys.length = 0 then (none, rot, cnt, [])
  else tryKeys env rot.keys.length rot cnt

/-- Mutable orchestrator state: the two process-wide rotators, the
number of API calls made per provider, and the keys attempted so far. -/
structure GenState where
  grokRot : KeyRotator
  gemRot : KeyRotator
  grokCnt : Nat
  gemCnt : Nat
  grokTrace : List (Option String)
  gemTrace : List (Option String)
deriving DecidableEq, Repr

def initState (grokKeys gemKeys : List String) : GenState :=
  ⟨⟨grokKeys, 0⟩, ⟨gemKeys, 0⟩, 0, 0, [], []⟩

/-- The terminal exception of `generate` (lines 188-192), carrying
`len(GROK_KEYS)`, `len(GEMINI_KEYS)` and `max_retries`. -/
structure ExhaustErr where
  grokKeys : Nat
  gemKeys : Nat
  retries : Nat
deriving DecidableEq, Repr

/-- One `_try_grok` invocation from `generate`, with its effect on the
shared state (rotator advanced, calls counted, keys recorded). -/
def grokPass (env : Env) (st : GenState) : Option String × GenState :=
  ((tryProvider env.grok st.grokRot st.grokCnt).1,
   { st with grokRot := (tryProvider env.grok st.grokRot st.grokCnt).2.1,
             grokCnt := (tryProvider env.grok st.grokRot st.grokCnt).2.2.1,
             grokTrace := st.grokTrace
               ++ (tryProvider env.grok st.grokRot st.grokCnt).2.2.2 })

/-- One `_try_gemini` invocation from `generate`, with its effect on
the shared state. -/
def gemPass (env : Env) (st : GenState) : Option String × GenState :=
  ((tryProvider env.gem st.gemRot st.gemCnt).1,
   { st with gemRot := (tryProvider env.gem st.gemRot st.gemCnt).2.1,
             gemCnt := (tryProvider env.gem st.gemRot st.gemCnt).2.2.1,
             gemTrace := st.gemTrace
               ++ (tryProvider env.gem st.gemRot st.gemCnt).2.2.2 })

/-- The `for retry in range(max_retries)` loop of `generate`
(lines 171-185): per cycle try all Groq keys, return on a truthy
result (`if result:`), else try all Gemini keys on the post-Groq
state, return on a truthy result, else next cycle. -/
def generateAux (env : Env) : Nat → GenState → Option String × GenState
  | 0, st => (none, st)
  | r + 1, st =>
    if truthy (grokPass env st).1 then grokPass env st
    else if truthy (gemPass env (grokPass env st).2).1 then
      gemPass env (grokPass env st).2
    else generateAux env r (gemPass env (grokPass env st).2).2

/-- `AIOrchestrator.generate` (lines 156-192): loop the retry cycles;
if none produced a truthy result raise the terminal exception. -/
def generate (env : Env) (st : GenState) (max_retries : Nat) :
    Except ExhaustErr String × GenState :=
  match generateAux env max_retries st with
  | (some t, st') => (.ok t, st')
  | (none, st') =>
    (.error ⟨st.grokRot.keys.length, st.gemRot.keys.length, max_retries⟩, st')

/-- `generate_content` (lines 203-214) calls `generate` with the
default `max_retries = 1`. -/
def generate_content (env : Env) (st : GenState) :
    Except ExhaustErr String × GenState :=
  generate env st 1

def Outcome.isRaise : Outcome → Bool
  | .raises _ => true
  | .returns _ => false

/-- The next `n` keys the rotator will hand out. -/
def rotWindow : Nat → KeyRotator → List (Option String)
  | 0, _ => []
  | n + 1, r => (r.get_next).1 :: rotWindow n (r.get_next).2

theorem rotWindow_eq (n : Nat) :
    ∀ r : KeyRotator, r.keys ≠ [] → r.current_index < r.keys.length →
      rotWindow n r
        = (List.range n).map
            (fun j => r.keys.get? ((r.current_index + j) % r.keys.length)) := by
  induction n with
  | zero => intro r _ _; simp [rotWindow]
  | succ n ih =>
    intro r hne hidx
    have hb : r.keys.isEmpty = false := by simp [List.isEmpty_iff, hne]
    have hlen : 0 < r.keys.length := List.length_pos.mpr hne
    have hstep : (r.get_next).2
        = { r with current_index := (r.current_index + 1) % r.keys.length } := by
      simp [KeyRotator.get_next, hb]
    have hhd : (r.get_next).1 = r.keys.get? r.current_index := by
      simp [KeyRotator.get_next, hb]
    show (r.get_next).1 :: rotWindow n (r.get_next).2 = _
    rw [hhd, hstep,
        ih { r with current_index := (r.current_index + 1) % r.keys.length }
          hne (Nat.mod_lt _ hlen)]
    rw [List.range_succ_eq_map]
    simp only [List.map_cons, List.map_map]
    congr 1
    · rw [Nat.add_zero, Nat.mod_eq_of_lt hidx]
    · apply List.map_congr_left
      intro j _
      simp only [Function.comp_apply]
      rw [Nat.mod_add_mod]
      have hj2 : r.current_index + 1 + j = r.current_index + (j + 1) := by omega
      rw [hj2]

theorem rotWindow_full (keys : List String) (hne : keys ≠ []) :
    rotWindow keys.length ⟨keys, 0⟩ = keys.map some := by
  have hlen : 0 < keys.length := List.length_pos.mpr hne
  rw [rotWindow_eq keys.length ⟨keys, 0⟩ hne hlen]
  apply List.ext_get?
  intro m
  simp only [List.get?_eq_getElem?, List.getElem?_map]
  by_cases hm : m < keys.length
  · rw [List.getElem?_range hm, List.getElem?_eq_getElem hm]
    simp [List.get?_eq_getElem?, List.getElem?_eq_getElem hm, Nat.mod_eq_of_lt hm]
  · have h1 : (List.range keys.length)[m]? = none := by
      rw [List.getElem?_eq_none]
      simpa using Nat.le_of_not_lt hm
    have h2 : keys[m]? = none := by
      rw [List.getElem?_eq_none]
      exact Nat.le_of_not_lt hm
    rw [h1, h2]
    rfl

theorem rotAdvance_full (keys : List String) (hne : keys ≠ []) :
    rotAdvance keys.length ⟨keys, 0⟩ = ⟨keys, 0⟩ := by
  have hlen : 0 < keys.length := List.length_pos.mpr hne
  have hk := rotAdvance_keys keys.length (⟨keys, 0⟩ : KeyRotator)
  have hi := rotAdvance_index keys.length ⟨keys, 0⟩ hne hlen
  cases h : rotAdvance keys.length (⟨keys, 0⟩ : KeyRotator) with
  | mk k i =>
    rw [h] at hk hi
    simp at hk hi
    simp [hk, hi]

/-- When every call in the window raises, the key loop exhausts the
whole pool: no result, one call per unit of fuel, and the attempt
trace is exactly the rotation window. -/
theorem tryKeys_raises (env : Nat → Outcome) :
    ∀ (fuel : Nat) (rot : KeyRotator) (cnt : Nat),
      (∀ j, j < fuel → (env (cnt + j)).isRaise = true) →
      tryKeys env fuel rot cnt
        = (none, rotAdvance fuel rot, cnt + fuel, rotWindow fuel rot) := by
  intro fuel
  induction fuel with
  | zero => intro rot cnt _; simp [tryKeys, rotAdvance, rotWindow]
  | succ fuel ih =>
    intro rot cnt h
    have h0 : (env cnt).isRaise = true := by
      have := h 0 (Nat.succ_pos fuel)
      simpa using this
    unfold tryKeys
    cases henv : env cnt with
    | returns c => rw [henv] at h0; simp [Outcome.isRaise] at h0
    | raises q =>
      simp only []
      rw [ih (rot.get_next).2 (cnt + 1)
            (fun j hj => by
              have hx := h (j + 1) (by omega)
              have he : cnt + 1 + j = cnt + (j + 1) := by omega
              rw [he]
              exact hx)]
      show (none, rotAdvance fuel (rot.get_next).2, cnt + 1 + fuel, _)
          = (none, rotAdvance (fuel + 1) rot, cnt + (fuel + 1), _)
      simp [rotAdvance, rotWindow]
      omega

/-- Any result handed back by the key loop is either the exhaustion
`none` or the content of some actual provider call. -/
theorem tryKeys_ok (env : Nat → Outcome) :
    ∀ (fuel : Nat) (rot : KeyRotator) (cnt : Nat),
      (tryKeys env fuel rot cnt).1 = none
      ∨ ∃ n, env n = .returns (tryKeys env fuel rot cnt).1 := by
  intro fuel
  induction fuel with
  | zero => intro rot cnt; left; rfl
  | succ fuel ih =>
    intro rot cnt
    unfold tryKeys
    cases henv : env cnt with
    | returns c =>
      right
      exact ⟨cnt, by rw [henv]⟩
    | raises q =>
      simpa using ih (rot.get_next).2 (cnt + 1)

/-- The attempted keys always follow the rotation order: the trace is
a prefix of the rotation window, whatever the outcomes are. -/
theorem tryKeys_trace (env : Nat → Outcome) :
    ∀ (fuel : Nat) (rot : KeyRotator) (cnt : Nat),
      ∃ rest, rotWindow fuel rot = (tryKeys env fuel rot cnt).2.2.2 ++ rest := by
  intro fuel
  induction fuel with
  | zero => intro rot cnt; exact ⟨[], rfl⟩
  | succ fuel ih =>
    intro rot cnt
    unfold tryKeys rotWindow
    cases henv : env cnt with
    | returns c =>
      exact ⟨rotWindow fuel (rot.get_next).2, rfl⟩
    | raises q =>
      obtain ⟨rest, hrest⟩ := ih (rot.get_next).2 (cnt + 1)
      exact ⟨rest, by simp [hrest]⟩

/-- The call counter advances exactly once per attempted key. -/
theorem tryKeys_cnt (env : Nat → Outcome) :
    ∀ (fuel : Nat) (rot : KeyRotator) (cnt : Nat),
      (tryKeys env fuel rot cnt).2.2.1
        = cnt + (tryKeys env fuel rot cnt).2.2.2.length := by
  intro fuel
  induction fuel with
  | zero => intro rot cnt; rfl
  | succ fuel ih =>
    intro rot cnt
    unfold tryKeys
    cases henv : env cnt with
    | returns c => simp
    | raises q =>
      have := ih (rot.get_next).2 (cnt + 1)
      simp only [List.length_cons]
      rw [this]
      omega

/-- The per-cycle key trace when a provider pool is fully exhausted
`r` times. -/
def cycleTrace (keys : List String) (r : Nat) : List (Option String) :=
  List.flatten (List.replicate r (keys.map some))

/-- One full provider pass in which every call raises: the pool is
exhausted, the rotator returns to its start, the trace lists every
key once. -/
theorem tryProvider_raises (env : Nat → Outcome) (keys : List String) (cnt : Nat)
    (h : ∀ n, (env n).isRaise = true) :
    tryProvider env ⟨keys, 0⟩ cnt
      = (none, ⟨keys, 0⟩, cnt + keys.length, keys.map some) := by
  unfold tryProvider
  by_cases hz : keys.length = 0
  · have : keys = [] := List.length_eq_zero.mp hz
    subst this
    simp
  · have hne : keys ≠ [] := by
      intro hk
      rw [hk] at hz
      exact hz rfl
    simp only [hz, if_false]
    rw [tryKeys_raises env keys.length ⟨keys, 0⟩ cnt (fun j _ => h (cnt + j))]
    rw [rotAdvance_full keys hne, rotWindow_full keys hne]

/-- When every provider call of both providers raises, the whole retry
loop exhausts every credential of every cycle: no result, call
counters advanced by `cycles × pool size`, and the traces extended by
one full rotation of the pool per cycle. -/
theorem generateAux_raises (env : Env)
    (hg : ∀ n, (env.grok n).isRaise = true)
    (hm : ∀ n, (env.gem n).isRaise = true) :
    ∀ (r : Nat) (st : GenState) (G M : List String),
      st.grokRot = ⟨G, 0⟩ → st.gemRot = ⟨M, 0⟩ →
      generateAux env r st
        = (none,
           { st with grokCnt := st.grokCnt + r * G.length,
                     gemCnt := st.gemCnt + r * M.length,
                     grokTrace := st.grokTrace ++ cycleTrace G r,
                     gemTrace := st.gemTrace ++ cycleTrace M r }) := by
  intro r
  induction r with
  | zero =>
    intro st G M hG hM
    simp [generateAux, cycleTrace]
  | succ r ih =>
    intro st G M hG hM
    have hgp : grokPass env st
        = (none, { st with grokCnt := st.grokCnt + G.length,
                           grokTrace := st.grokTrace ++ G.map some }) := by
      unfold grokPass
      rw [hG, tryProvider_raises env.grok G st.grokCnt hg]
    have hmp : gemPass env (grokPass env st).2
        = (none, { st with grokCnt := st.grokCnt + G.length,
                           grokTrace := st.grokTrace ++ G.map some,
                           gemCnt := st.gemCnt + M.length,
                           gemTrace := st.gemTrace ++ M.map some }) := by
      rw [hgp]
      unfold gemPass
      simp only []
      rw [hM, tryProvider_raises env.gem M st.gemCnt hm]
    unfold generateAux
    rw [hmp, hgp]
    simp only [truthy, Bool.false_eq_true, if_false]
    rw [ih { st with grokCnt := st.grokCnt + G.length,
                     gemCnt := st.gemCnt + M.length,
                     grokTrace := st.grokTrace ++ List.map some G,
                     gemTrace := st.gemTrace ++ List.map some M } G M hG hM]
    have h1 : st.grokCnt + G.length + r * G.length = st.grokCnt + (r + 1) * G.length := by
      ring
    have h2 : st.gemCnt + M.length + r * M.length = st.gemCnt + (r + 1) * M.length := by
      ring
    have h3 : st.grokTrace ++ G.map some ++ cycleTrace G r
        = st.grokTrace ++ cycleTrace G (r + 1) := by
      simp [cycleTrace, List.replicate_succ]
    have h4 : st.gemTrace ++ M.map some ++ cycleTrace M r
        = st.gemTrace ++ cycleTrace M (r + 1) := by
      simp [cycleTrace, List.replicate_succ]
    simp only [Prod.mk.injEq, GenState.mk.injEq, true_and]
    exact ⟨h1, h2, h3, h4⟩

/-- Any truthy provider-pass result is the content of some actual
call of that provider. -/
theorem grokPass_ok (env : Env) (st : GenState) (t : String)
    (h : (grokPass env st).1 = some t) :
    ∃ n, env.grok n = .returns (some t) := by
  unfold grokPass at h
  simp only at h
  have hcase := tryKeys_ok env.grok st.grokRot.keys.length st.grokRot st.grokCnt
  unfold tryProvider at h
  by_cases hz : st.grokRot.keys.length = 0
  · rw [if_pos hz] at h; exact absurd h (by simp)
  · rw [if_neg hz] at h
    rcases hcase with hnone | ⟨n, hn⟩
    · rw [h] at hnone; exact absurd hnone (by simp)
    · exact ⟨n, by rw [hn, h]⟩

theorem gemPass_ok (env : Env) (st : GenState) (t : String)
    (h : (gemPass env st).1 = some t) :
    ∃ n, env.gem n = .returns (some t) := by
  unfold gemPass at h
  simp only at h
  have hcase := tryKeys_ok env.gem st.gemRot.keys.length st.gemRot st.gemCnt
  unfold tryProvider at h
  by_cases hz : st.gemRot.keys.length = 0
  · rw [if_pos hz] at h; exact absurd h (by simp)
  · rw [if_neg hz] at h
    rcases hcase with hnone | ⟨n, hn⟩
    · rw [h] at hnone; exact absurd hnone (by simp)
    · exact ⟨n, by rw [hn, h]⟩

/-- A successful `generate` result is non-empty and is the verbatim
content of some actual provider call. -/
theorem generateAux_ok (env : Env) :
    ∀ (r : Nat) (st : GenState) (t : String),
      (generateAux env r st).1 = some t →
      t ≠ "" ∧ ((∃ n, env.grok n = .returns (some t))
                ∨ ∃ n, env.gem n = .returns (some t)) := by
  intro r
  induction r with
  | zero => intro st t h; exact absurd h (by simp [generateAux])
  | succ r ih =>
    intro st t h
    unfold generateAux at h
    by_cases hg : truthy (grokPass env st).1 = true
    · rw [if_pos hg] at h
      have hres : (grokPass env st).1 = some t := h
      have hne : t ≠ "" := by
        rw [hres] at hg
        simpa [truthy] using hg
      exact ⟨hne, Or.inl (grokPass_ok env st t hres)⟩
    · rw [if_neg hg] at h
      by_cases hm : truthy (gemPass env (grokPass env st).2).1 = true
      · rw [if_pos hm] at h
        have hres : (gemPass env (grokPass env st).2).1 = some t := h
        have hne : t ≠ "" := by
          rw [hres] at hm
          simpa [truthy] using hm
        exact ⟨hne, Or.inr (gemPass_ok env _ t hres)⟩
      · rw [if_neg hm] at h
        exact ih _ t h

/-- Outcome sequences that agree after forgetting the quota flag. -/
def blindEq (e e' : Nat → Outcome) : Prop :=
  ∀ n, (e n).quotaBlind = (e' n).quotaBlind

theorem tryKeys_blind (env env' : Nat → Outcome) (h : blindEq env env') :
    ∀ (fuel : Nat) (rot : KeyRotator) (cnt : Nat),
      tryKeys env fuel rot cnt = tryKeys env' fuel rot cnt := by
  intro fuel
  induction fuel with
  | zero => intro rot cnt; rfl
  | succ fuel ih =>
    intro rot cnt
    have hcnt := h cnt
    unfold tryKeys
    cases he : env cnt with
    | returns c =>
      rw [he] at hcnt
      cases he' : env' cnt with
      | returns c' =>
        rw [he'] at hcnt
        simp [Outcome.quotaBlind] at hcnt
        rw [hcnt]
      | raises q' =>
        rw [he'] at hcnt
        simp [Outcome.quotaBlind] at hcnt
    | raises q =>
      rw [he] at hcnt
      cases he' : env' cnt with
      | returns c' =>
        rw [he'] at hcnt
        simp [Outcome.quotaBlind] at hcnt
      | raises q' =>
        rw [ih (rot.get_next).2 (cnt + 1)]

theorem grokPass_blind (env env' : Env) (hg : blindEq env.grok env'.grok)
    (st : GenState) : grokPass env st = grokPass env' st := by
  unfold grokPass tryProvider
  rw [tryKeys_blind env.grok env'.grok hg]

theorem gemPass_blind (env env' : Env) (hm : blindEq env.gem env'.gem)
    (st : GenState) : gemPass env st = gemPass env' st := by
  unfold gemPass tryProvider
  rw [tryKeys_blind env.gem env'.gem hm]

theorem generateAux_blind (env env' : Env)
    (hg : blindEq env.grok env'.grok) (hm : blindEq env.gem env'.gem) :
    ∀ (r : Nat) (st : GenState),
      generateAux env r st = generateAux env' r st := by
  intro r
  induction r with
  | zero => intro st; rfl
  | succ r ih =>
    intro st
    unfold generateAux
    rw [grokPass_blind env env' hg st, gemPass_blind env env' hm, ih]

/-- The quota flag of a failure never influences `generate`. -/
theorem generate_blind (env env' : Env)
    (hg : blindEq env.grok env'.grok) (hm : blindEq env.gem env'.gem)
    (st : GenState) (r : Nat) :
    generate env st r = generate env' st r := by
  unfold generate
  rw [generateAux_blind env env' hg hm]

theorem get_next_keys (r : KeyRotator) : ((r.get_next).2).keys = r.keys := by
  unfold KeyRotator.get_next
  by_cases h : r.keys.isEmpty <;> simp [h]

theorem get_next_index (r : KeyRotator) (hne : r.keys ≠ []) :
    ((r.get_next).2).current_index = (r.current_index + 1) % r.keys.length := by
  have hb : r.keys.isEmpty = false := by simp [List.isEmpty_iff, hne]
  simp [KeyRotator.get_next, hb]

/-- A provider call that returns (even `None` or `""`) ends the key
loop at once: exactly one call, one rotator step, one attempted key. -/
theorem tryProvider_returns (e : Nat → Outcome) (rot : KeyRotator) (cnt : Nat)
    (hne : rot.keys ≠ []) (c : Option String) (he : e cnt = .returns c) :
    tryProvider e rot cnt = (c, (rot.get_next).2, cnt + 1, [(rot.get_next).1]) := by
  unfold tryProvider
  have hz : rot.keys.length ≠ 0 := by
    simpa [List.length_eq_zero] using hne
  rw [if_neg hz]
  cases hk : rot.keys.length with
  | zero => exact absurd hk hz
  | succ m =>
    unfold tryKeys
    rw [he]

/-- Retry loop when every call of both providers returns an empty
completion: each cycle makes exactly one Groq call and one Gemini
call, and no cycle produces a result. -/
theorem generateAux_empty (env : Env)
    (hg : ∀ n, env.grok n = .returns (some ""))
    (hm : ∀ n, env.gem n = .returns (some "")) :
    ∀ (r : Nat) (st : GenState), st.grokRot.keys ≠ [] → st.gemRot.keys ≠ [] →
      (generateAux env r st).1 = none
      ∧ (generateAux env r st).2.grokCnt = st.grokCnt + r
      ∧ (generateAux env r st).2.gemCnt = st.gemCnt + r := by
  intro r
  induction r with
  | zero =>
    intro st hG hM
    refine ⟨rfl, ?_, ?_⟩ <;> simp [generateAux]
  | succ r ih =>
    intro st hG hM
    have hgp : grokPass env st
        = (some "",
           { st with grokRot := (st.grokRot.get_next).2,
                     grokCnt := st.grokCnt + 1,
                     grokTrace := st.grokTrace ++ [(st.grokRot.get_next).1] }) := by
      unfold grokPass
      rw [tryProvider_returns env.grok st.grokRot st.grokCnt hG (some "") (hg _)]
    have hmp : gemPass env (grokPass env st).2
        = (some "",
           { st with grokRot := (st.grokRot.get_next).2,
                     grokCnt := st.grokCnt + 1,
                     grokTrace := st.grokTrace ++ [(st.grokRot.get_next).1],
                     gemRot := (st.gemRot.get_next).2,
                     gemCnt := st.gemCnt + 1,
                     gemTrace := st.gemTrace ++ [(st.gemRot.get_next).1] }) := by
      rw [hgp]
      unfold gemPass
      simp only []
      rw [tryProvider_returns env.gem st.gemRot st.gemCnt hM (some "") (hm _)]
    unfold generateAux
    rw [hmp, hgp]
    simp only [truthy, beq_self_eq_true, Bool.not_true, Bool.false_eq_true, if_false]
    have hG' : ((st.grokRot.get_next).2).keys ≠ [] := by
      rw [get_next_keys]; exact hG
    have hM' : ((st.gemRot.get_next).2).keys ≠ [] := by
      rw [get_next_keys]; exact hM
    obtain ⟨h1, h2, h3⟩ := ih
      { st with grokRot := (st.grokRot.get_next).2,
                grokCnt := st.grokCnt + 1,
                grokTrace := st.grokTrace ++ [(st.grokRot.get_next).1],
                gemRot := (st.gemRot.get_next).2,
                gemCnt := st.gemCnt + 1,
                gemTrace := st.gemTrace ++ [(st.gemRot.get_next).1] }
      hG' hM'
    refine ⟨h1, ?_, ?_⟩
    · rw [h2]; simp; omega
    · rw [h3]; simp; omega

/-- `generate` raises exactly when the retry loop yields no result,
and the exception carries the two configured pool sizes and the cycle
count. -/
theorem generate_error_of_none (env : Env) (st : GenState) (r : Nat)
    (h : (generateAux env r st).1 = none) :
    generate env st r
      = (.error ⟨st.grokRot.keys.length, st.gemRot.keys.length, r⟩,
         (generateAux env r st).2) := by
  unfold generate
  cases haux : generateAux env r st with
  | mk fst snd =>
    rw [haux] at h
    simp at h
    rw [h]

/-! ## Claims C1, C2, C3, C9 -/

/-- Oracle for the C1 counterexample: every Groq call completes
without raising but with an empty completion text; Gemini (whose pool
will be empty) would raise. -/
def envC1 : Env := ⟨fun _ => .returns (some ""), fun _ => .raises false⟩

/-- Claim C1 counterexample: with two configured Groq credentials and
an oracle whose first Groq call yields a (empty-text) result, the
orchestrator raises the terminal exception reporting 2 Groq keys
tried, even though only one credential was ever attempted (one call,
trace `[k1]`) and that attempt did yield a result rather than fail —
so the exception is not raised "only after every credential of every
configured provider has failed". -/
theorem generate_raises_without_exhausting_credentials :
    envC1.grok 0 = .returns (some "")
    ∧ (generate envC1 (initState ["k1", "k2"] []) 1).1 = .error ⟨2, 0, 1⟩
    ∧ (generate envC1 (initState ["k1", "k2"] []) 1).2.grokCnt = 1
    ∧ (generate envC1 (initState ["k1", "k2"] []) 1).2.grokTrace = [some "k1"] :=
  ⟨rfl, rfl, rfl, rfl⟩

/-- Claim C1 (amended): when every provider call fails by raising (the
ordinary failure mode), `generate` raises the terminal exception —
carrying the Groq pool size, the Gemini pool size and the retry-cycle
count — only after every credential of every configured provider has
been attempted in every retry cycle (cycles × pool size calls per
provider, the trace cycling through the whole pool each time); and
whenever `generate` returns instead of raising, the returned text is
the non-empty content of some actual provider call. -/
theorem generate_exhaustion (G M : List String) (r : Nat) (env : Env) :
    ((∀ n, (env.grok n).isRaise = true) → (∀ n, (env.gem n).isRaise = true) →
      generate env (initState G M) r
        = (.error ⟨G.length, M.length, r⟩,
           ⟨⟨G, 0⟩, ⟨M, 0⟩, r * G.length, r * M.length,
            cycleTrace G r, cycleTrace M r⟩))
    ∧ (∀ (t : String) (st' : GenState),
        generate env (initState G M) r = (.ok t, st') →
        t ≠ "" ∧ ((∃ n, env.grok n = .returns (some t))
                  ∨ ∃ n, env.gem n = .returns (some t))) := by
  constructor
  · intro hg hm
    have haux := generateAux_raises env hg hm r (initState G M) G M rfl rfl
    unfold generate
    rw [haux]
    simp [initState]
  · intro t st' h
    unfold generate at h
    cases haux : generateAux env r (initState G M) with
    | mk fst snd =>
      rw [haux] at h
      cases fst with
      | none => exact absurd h (by simp)
      | some u =>
        simp at h
        have := generateAux_ok env r (initState G M) u (by rw [haux])
        rw [h.1] at this
        exact this

/-- Oracle where every call of both providers raises (Groq ones
quota-flagged). -/
def envAllRaise : Env := ⟨fun _ => .raises true, fun _ => .raises false⟩

/-- Witness for `generate_exhaustion`: one Groq key, one Gemini key,
two retry cycles, every call raising. -/
theorem generate_exhaustion_witness :
    (generate envAllRaise (initState ["g1"] ["m1"]) 2).1 = .error ⟨1, 1, 2⟩
    ∧ (generate envAllRaise (initState ["g1"] ["m1"]) 2).2.grokTrace
        = [some "g1", some "g1"] := by
  have h := (generate_exhaustion ["g1"] ["m1"] 2 envAllRaise).1
    (fun n => rfl) (fun n => rfl)
  rw [h]
  exact ⟨rfl, rfl⟩

/-- Oracle for the C2 counterexample: the first Groq call fails with a
quota-specific error, every later Groq call succeeds. -/
def envC2 : Env :=
  ⟨fun n => if n = 0 then .raises true else .returns (some "ok"),
   fun _ => .raises false⟩

/-- Claim C2 counterexample: after the quota-specific failure of the
first call (on credential k1), the very next call is made on the next
credential k2 — the trace is `[k1, k2]`, with k1 never retried — so a
quota error does not trigger up to 3 backoff retries of the same
credential before moving on. -/
theorem quota_failure_advances_immediately :
    envC2.grok 0 = .raises true
    ∧ (generate envC2 (initState ["k1", "k2"] []) 1).1 = .ok "ok"
    ∧ (generate envC2 (initState ["k1", "k2"] []) 1).2.grokTrace
        = [some "k1", some "k2"] :=
  ⟨rfl, rfl, rfl⟩

/-- Claim C2 (amended): the orchestrator treats quota-specific and
other failures identically — `generate` is invariant under changing
which failures are quota-specific — and a failed call is never
retried on the same credential: the attempted keys always follow the
rotation order (the trace is a prefix of the rotation window), with
exactly one call per attempted key and no delay mechanism in between. -/
theorem failure_handling_uniform :
    (∀ (env env' : Env) (st : GenState) (r : Nat),
      blindEq env.grok env'.grok → blindEq env.gem env'.gem →
      generate env st r = generate env' st r)
    ∧ (∀ (e : Nat → Outcome) (fuel : Nat) (rot : KeyRotator) (cnt : Nat),
        ∃ rest, rotWindow fuel rot = (tryKeys e fuel rot cnt).2.2.2 ++ rest)
    ∧ (∀ (e : Nat → Outcome) (fuel : Nat) (rot : KeyRotator) (cnt : Nat),
        (tryKeys e fuel rot cnt).2.2.1 = cnt + (tryKeys e fuel rot cnt).2.2.2.length) := by
  refine ⟨?_, ?_, ?_⟩
  · intro env env' st r hg hm
    exact generate_blind env env' hg hm st r
  · intro e fuel rot cnt
    exact tryKeys_trace e fuel rot cnt
  · intro e fuel rot cnt
    exact tryKeys_cnt e fuel rot cnt

/-- Like `envC2` but with the quota flag cleared on the failure. -/
def envC2' : Env :=
  ⟨fun n => if n = 0 then .raises false else .returns (some "ok"),
   fun _ => .raises false⟩

/-- Witness for `failure_handling_uniform`: a quota-flagged failure
and a plain failure produce identical `generate` behaviour. -/
theorem failure_handling_uniform_witness :
    generate envC2 (initState ["k1", "k2"] []) 1
      = generate envC2' (initState ["k1", "k2"] []) 1 :=
  failure_handling_uniform.1 envC2 envC2' (initState ["k1", "k2"] []) 1
    (fun n => by by_cases h : n = 0 <;> simp [envC2, envC2', h, Outcome.quotaBlind])
    (fun n => rfl)

/-- Claim C3: `get_next` is strictly round-robin.  On a fresh rotator
over a pool of size N ≥ 1, the (k·N + i)-th call returns the same
credential as the i-th; the first 2N calls return the pool twice over
in order; `reset` rewinds the cursor to index 0 keeping the pool; and
(on any state with a valid cursor) `get_next` returns `none` exactly
when the pool is empty. -/
theorem keyRotator_round_robin (keys : List String) (hne : keys ≠ []) :
    (∀ k i, nthKey keys (k * keys.length + i) = nthKey keys i)
    ∧ (∀ i, i < 2 * keys.length → nthKey keys i = (keys ++ keys).get? i)
    ∧ (∀ r : KeyRotator, r.reset = ⟨r.keys, 0⟩)
    ∧ (∀ r : KeyRotator, r.current_index < r.keys.length ∨ r.keys = [] →
        (((r.get_next).1 = none) ↔ r.keys = [])) := by
  have hlen : 0 < keys.length := List.length_pos.mpr hne
  refine ⟨?_, ?_, ?_, ?_⟩
  · intro k i
    rw [nthKey_eq keys _ hne, nthKey_eq keys i hne]
    congr 1
    conv_lhs => rw [Nat.add_comm, Nat.add_mul_mod_self_right]
  · intro i hi
    rw [nthKey_eq keys i hne]
    by_cases h : i < keys.length
    · rw [List.get?_append h, Nat.mod_eq_of_lt h]
    · have hle : keys.length ≤ i := Nat.le_of_not_lt h
      rw [List.get?_append_right hle]
      congr 1
      rw [Nat.mod_eq_sub_mod hle, Nat.mod_eq_of_lt (by omega)]
  · intro r
    rfl
  · intro r h
    unfold KeyRotator.get_next
    rcases h with hidx | hempty
    · have hr : r.keys ≠ [] := by
        intro hk
        rw [hk] at hidx
        simp at hidx
      have hb : r.keys.isEmpty = false := by simp [List.isEmpty_iff, hr]
      simp only [hb, Bool.false_eq_true, if_false]
      constructor
      · intro hnone
        exact absurd hnone (by simp [List.get?_eq_none]; omega)
      · intro hk
        exact absurd hk hr
    · simp [hempty]

/-- Witness for `keyRotator_round_robin` on the pool `[a, b, c]`:
call 4 = call 1, the first 6 calls walk the doubled pool, reset
rewinds, and `get_next` is `some` on the non-empty pool. -/
theorem keyRotator_round_robin_witness :
    nthKey ["a", "b", "c"] 4 = nthKey ["a", "b", "c"] 1
    ∧ nthKey ["a", "b", "c"] 5
        = (["a", "b", "c"] ++ ["a", "b", "c"]).get? 5
    ∧ (KeyRotator.reset ⟨["a", "b", "c"], 2⟩ : KeyRotator) = ⟨["a", "b", "c"], 0⟩
    ∧ (((⟨["a", "b", "c"], 2⟩ : KeyRotator).get_next).1 = none
        ↔ (["a", "b", "c"] : List String) = []) :=
  have h := keyRotator_round_robin ["a", "b", "c"] (by simp)
  ⟨h.1 1 1, h.2.1 5 (by norm_num), h.2.2.1 ⟨["a", "b", "c"], 2⟩,
   h.2.2.2 ⟨["a", "b", "c"], 2⟩ (Or.inl (by norm_num))⟩

/-- Claim C9: a provider call that completes without raising but with
an empty completion is treated like a failure by fallthrough: the key
loop hands the empty result back at once without trying the remaining
credentials (one call, one attempted key); `generate`'s truthiness
check rejects it and moves to the next provider; and when every call
of both providers yields the empty text, `generate` raises the
terminal exhaustion exception — with exactly one call per provider
per retry cycle — although no provider call raised an error. -/
theorem empty_completion_is_failure :
    (∀ (e : Nat → Outcome) (keys : List String) (cnt : Nat), keys ≠ [] →
      e cnt = .returns (some "") →
      tryProvider e ⟨keys, 0⟩ cnt
        = (some "", ⟨keys, 1 % keys.length⟩, cnt + 1, [keys.get? 0]))
    ∧ (∀ (env : Env) (G M : List String) (r : Nat),
        (∀ n, env.grok n = .returns (some "")) →
        (∀ n, env.gem n = .returns (some "")) →
        G ≠ [] → M ≠ [] →
        (generate env (initState G M) r).1 = .error ⟨G.length, M.length, r⟩
        ∧ (generate env (initState G M) r).2.grokCnt = r
        ∧ (generate env (initState G M) r).2.gemCnt = r) := by
  constructor
  · intro e keys cnt hne he
    rw [tryProvider_returns e ⟨keys, 0⟩ cnt hne (some "") he]
    have hb : keys.isEmpty = false := by simp [List.isEmpty_iff, hne]
    simp [KeyRotator.get_next, hb]
  · intro env G M r hg hm hG hM
    have h := generateAux_empty env hg hm r (initState G M) hG hM
    have herr := generate_error_of_none env (initState G M) r h.1
    rw [herr]
    refine ⟨rfl, ?_, ?_⟩
    · have := h.2.1
      simpa [initState] using this
    · have := h.2.2
      simpa [initState] using this

/-- Oracle where every call of both providers returns the empty
completion text. -/
def envEmpty : Env := ⟨fun _ => .returns (some ""), fun _ => .returns (some "")⟩

/-- Witness for `empty_completion_is_failure`: pools of sizes 2 and 1,
one retry cycle, all calls returning empty text. -/
theorem empty_completion_is_failure_witness :
    (tryProvider envEmpty.grok ⟨["a", "b"], 0⟩ 0
        = (some "", ⟨["a", "b"], 1 % 2⟩, 1, [(["a", "b"] : List String).get? 0]))
    ∧ (generate envEmpty (initState ["a", "b"] ["c"]) 1).1 = .error ⟨2, 1, 1⟩
    ∧ (generate envEmpty (initState ["a", "b"] ["c"]) 1).2.grokCnt = 1 :=
  have h1 := empty_completion_is_failure.1 envEmpty.grok ["a", "b"] 0
    (by simp) rfl
  have h2 := empty_completion_is_failure.2 envEmpty ["a", "b"] ["c"] 1
    (fun n => rfl) (fun n => rfl) (by simp) (by simp)
  ⟨h1, h2.1, h2.2.1⟩

/-! ## Patch reconstruction (`apply_patch_to_content`, agents.py 44-81)

The source writes `original` to a temp file, prepends the header
`--- a/temp_file\n+++ b/temp_file\n` to the patch, runs
`git apply --ignore-space-change --ignore-whitespace patch.diff`, and
returns the rewritten file on success or `None` when `git apply`
exits non-zero.  The external tool is modelled as a unified-diff hunk
applier: hunks are parsed after the header; a patch containing no
hunk is rejected exactly as `git apply` rejects it ("No valid patches
in input", exit 128); old lines are matched at the stated position
with whitespace-insensitive comparison (the `--ignore-whitespace`
flags); any mismatch or corrupt hunk is a failure.  (git's search for
a matching position at small offsets from the stated line is not
modelled; no input in this file exercises it.) -/

/-- Character-level line splitting, agreeing with Python's
`str.split("\n")` and `String.splitOn "\n"`. -/
def splitNl : List Char → List (List Char)
  | [] => [[]]
  | '\n' :: r => [] :: splitNl r
  | c :: r =>
    match splitNl r with
    | x :: xs => (c :: x) :: xs
    | [] => [[c]]

def linesOf (s : String) : List String :=
  (splitNl s.toList).map String.mk

def joinNl : List String → String
  | [] => ""
  | [x] => x
  | x :: xs => x ++ "\n" ++ joinNl xs

structure Hunk where
  oldStart : Nat
  oldCount : Nat
  newStart : Nat
  newCount : Nat
  body : List (Char × String)
deriving DecidableEq, Repr

/-- `-a,b` or `-a` (count defaults to 1). -/
def parseRange (cs : List Char) : Option (Nat × Nat × List Char) :=
  match parseNat cs with
  | none => none
  | some (a, rest) =>
    match rest with
    | ',' :: r2 =>
      match parseNat r2 with
      | some (b, r3) => some (a, b, r3)
      | none => none
    | _ => some (a, 1, rest)

/-- Hunk header `@@ -a,b +c,d @@` (suffix after the closing `@@`
tolerated, as by git). -/
def parseHunkHeader (s : String) : Option (Nat × Nat × Nat × Nat) :=
  match s.toList with
  | '@' :: '@' :: ' ' :: '-' :: r =>
    match parseRange r with
    | none => none
    | some (a, b, r1) =>
      match r1 with
      | ' ' :: '+' :: r2 =>
        match parseRange r2 with
        | none => none
        | some (c, d, r3) =>
          match r3 with
          | ' ' :: '@' :: '@' :: _ => some (a, b, c, d)
          | _ => none
      | _ => none
  | _ => none

/-- Collect one hunk's tagged lines until the old and new counts are
both satisfied; a truncated or ill-tagged hunk is corrupt.  A fully
blank line is tolerated as an empty context line. -/
def takeHunkBody : Nat → Nat → List String → Option (List (Char × String) × List String)
  | 0, 0, ls => some ([], ls)
  | _, _, [] => none
  | oc, nc, l :: ls =>
    match l.toList with
    | [] =>
      match oc, nc with
      | o + 1, n + 1 =>
        match takeHunkBody o n ls with
        | some (body, rest) => some ((' ', "") :: body, rest)
        | none => none
      | _, _ => none
    | c :: tcs =>
      let t := String.mk tcs
      if c = ' ' then
        match oc, nc with
        | o + 1, n + 1 =>
          match takeHunkBody o n ls with
          | some (body, rest) => some ((' ', t) :: body, rest)
          | none => none
        | _, _ => none
      else if c = '-' then
        match oc with
        | o + 1 =>
          match takeHunkBody o nc ls with
          | some (body, rest) => some (('-', t) :: body, rest)
          | none => none
        | 0 => none
      else if c = '+' then
        match nc with
        | n + 1 =>
          match takeHunkBody oc n ls with
          | some (body, rest) => some (('+', t) :: body, rest)
          | none => none
        | 0 => none
      else if c = '\\' then
        -- "\ No newline at end of file" marker: consumed, not counted
        match takeHunkBody oc nc ls with
        | some (body, rest) => some (body, rest)
        | none => none
      else none

/-- All hunks of a header-less patch body; a lone trailing empty line
(the final newline of the patch file) is accepted after the hunks. -/
def parseHunksF : Nat → List String → Option (List Hunk)
  | _, [] => some []
  | _, [""] => some []
  | 0, _ => none
  | fuel + 1, l :: ls =>
    match parseHunkHeader l with
    | none => none
    | some (a, b, c, d) =>
      match takeHunkBody b d ls with
      | none => none
      | some (body, rest) =>
        match parseHunksF fuel rest with
        | some hs => some (⟨a, b, c, d, body⟩ :: hs)
        | none => none

def isWsChar (c : Char) : Bool :=
  c = ' ' || c = '\t' || c = '\x0d'

/-- Whitespace-insensitive line comparison
(`--ignore-space-change --ignore-whitespace`). -/
def lineMatch (a b : String) : Bool :=
  a.toList.filter (fun c => !(isWsChar c)) == b.toList.filter (fun c => !(isWsChar c))

/-- Replay one hunk body against the buffer segment at the hunk
position: context and deletion lines must match the buffer (modulo
whitespace); context and addition lines are emitted. -/
def applyLines : List (Char × String) → List String → Option (List String)
  | [], seg => some seg
  | (t, s) :: rest, seg =>
    if t = '+' then
      match applyLines rest seg with
      | some out => some (s :: out)
      | none => none
    else
      match seg with
      | [] => none
      | b :: bs =>
        if lineMatch b s then
          if t = ' ' then
            match applyLines rest bs with
            | some out => some (s :: out)
            | none => none
          else
            applyLines rest bs
        else none

/-- Apply hunks in order, tracking the line-offset delta produced by
earlier hunks. -/
def applyHunks : List Hunk → Int → List String → Option (List String)
  | [], _, buf => some buf
  | h :: hs, delta, buf =>
    let base : Int := if h.oldStart = 0 then 0 else (h.oldStart : Int) - 1
    let pos : Int := base + delta
    if pos < 0 then none
    else
      match applyLines h.body (buf.drop pos.toNat) with
      | none => none
      | some newSeg =>
        if pos.toNat ≤ buf.length then
          applyHunks hs (delta + ((h.newCount : Int) - (h.oldCount : Int)))
            (buf.take pos.toNat ++ newSeg)
        else none

/-- Model of the `git apply` invocation on the synthesized patch file:
header, then hunks; zero hunks is "No valid patches in input". -/
def gitApply (content : String) (patchText : String) : Option String :=
  match linesOf patchText with
  | "--- a/temp_file" :: "+++ b/temp_file" :: rest =>
    match parseHunksF rest.length rest with
    | some [] => none
    | some hs =>
      match applyHunks hs 0 (linesOf content) with
      | some out => some (joinNl out)
      | none => none
    | none => none
  | _ => none

/-- `apply_patch_to_content` (agents.py 44-81): prepend the header,
run `git apply`, return the rewritten file or `None` on failure.
(The source's final `return original` is reachable only if the temp
file vanished after a successful apply, which cannot happen here.) -/
def apply_patch_to_content (original patch : String) : Option String :=
  gitApply original ("--- a/temp_file\n+++ b/temp_file\n" ++ patch)

example :
    apply_patch_to_content "line1\nline2\n"
      "@@ -1,2 +1,2 @@\n line1\n-line2\n+line2new\n"
      = some "line1\nline2new\n" := rfl

/-! ## Response parsing in `analyze_full_code` (agents.py 542-567)

`json.loads` first; on failure `re.search(r'\x7b.*\x7d', text,
re.DOTALL)`, whose leftmost-greedy match runs from the first `\x7b` of
the text to the last `\x7d`; re-parse the match; a re-parse failure
escapes the inner handler and is caught by the outer
`except Exception` (line 569), producing the "AI Error" report; only
when no span exists at all is the bounded-prefix fallback Issue
synthesized. -/

def afterFirst (c : Char) : List Char → Option (List Char)
  | [] => none
  | x :: xs => if x = c then some xs else afterFirst c xs

/-- The `re.search(r'\x7b.*\x7d', s, re.DOTALL)` match: from the first
opening brace to the last closing brace, when that span exists. -/
def extractSpanL (cs : List Char) : Option (List Char) :=
  (afterFirst '\x7b' cs).bind fun rest =>
    (afterFirst '\x7d' rest.reverse).map fun revMid =>
      '\x7b' :: (revMid.reverse ++ ['\x7d'])

def extractSpan (s : String) : Option String :=
  (extractSpanL s.toList).map String.mk

/-- Python slicing `s[:n]` (by characters). -/
def takeChars (n : Nat) (s : String) : String :=
  String.mk (s.toList.take n)

/-- Depth-counting scan for the matching close brace, collecting the
scanned characters (close brace included). -/
def scanBal : Nat → List Char → Option (List Char)
  | _, [] => none
  | d, c :: rest =>
    if c = '\x7d' then
      if d = 1 then some ['\x7d']
      else
        match scanBal (d - 1) rest with
        | some out => some (c :: out)
        | none => none
    else if c = '\x7b' then
      match scanBal (d + 1) rest with
      | some out => some (c :: out)
      | none => none
    else
      match scanBal d rest with
      | some out => some (c :: out)
      | none => none

/-- Modelled from the spec: the "first balanced `\x7b...\x7d` span" that
§4.5 describes salvage as extracting — the source itself has no such
extractor, its regex is leftmost-greedy.  Used only to compare the
spec's description against the code's `extractSpan`. -/
def specFirstBalancedSpan (s : String) : Option String :=
  match afterFirst '\x7b' s.toList with
  | none => none
  | some rest =>
    match scanBal 1 rest with
    | some mid => some (String.mk ('\x7b' :: mid))
    | none => none

/-- The fallback report synthesized when no brace span exists
(agents.py 556-567). -/
def fallbackReport (response : String) : Json :=
  .obj [("summary", .str "Analysis completed (non-JSON response)"),
        ("issues", .arr [.obj
          [("category", .str "AI Response"),
           ("severity", .str "Medium"),
           ("line", .num 0),
           ("message", .str (takeChars 500 response)),
           ("suggestion", .str "Review the full AI response")]]),
        ("recommendation", .str "Review")]

/-- The outer `except Exception` report of `analyze_full_code`
(agents.py 569-579), with `em` the exception text. -/
def aiErrorReport (em : String) : Json :=
  .obj [("summary", .str "AI Error"),
        ("issues", .arr [.obj
          [("category", .str "System"),
           ("severity", .str "High"),
           ("message", .str em)]]),
        ("recommendation", .str "Error")]

/-- The response-handling stage of `analyze_full_code` (agents.py
547-567 with the outer handler at 569): parse; salvage via the greedy
brace span; a failed salvage re-parse reaches the outer handler; no
span at all synthesizes the bounded fallback Issue. -/
def analyze_full_code_parse (em : String) (response : String) : Json :=
  match loads response with
  | some v => v
  | none =>
    match extractSpan response with
    | some span =>
      match loads span with
      | some v => v
      | none => aiErrorReport em
    | none => fallbackReport response

theorem afterFirst_spec (c : Char) :
    ∀ cs rest, afterFirst c cs = some rest →
      ∃ pre, cs = pre ++ c :: rest ∧ c ∉ pre := by
  intro cs
  induction cs with
  | nil => intro rest h; exact Option.noConfusion h
  | cons x xs ih =>
    intro rest h
    unfold afterFirst at h
    by_cases hx : x = c
    · rw [if_pos hx] at h
      refine ⟨[], ?_, by simp⟩
      simp at h
      rw [hx, h]
      rfl
    · rw [if_neg hx] at h
      obtain ⟨pre, hpre, hmem⟩ := ih rest h
      refine ⟨x :: pre, by rw [hpre]; rfl, ?_⟩
      simp [hmem]
      intro he
      exact hx he.symm

/-- The greedy span really runs from the first `\x7b` to the last
`\x7d`: the match decomposes the text with no opening brace before it
and no closing brace after it, and it is itself brace-delimited. -/
theorem extractSpanL_spec (cs t : List Char) (h : extractSpanL cs = some t) :
    ∃ pre post mid,
      cs = pre ++ t ++ post
      ∧ '\x7b' ∉ pre ∧ '\x7d' ∉ post
      ∧ t = '\x7b' :: mid ++ ['\x7d'] := by
  unfold extractSpanL at h
  cases h1 : afterFirst '\x7b' cs with
  | none => rw [h1] at h; exact absurd h (by simp)
  | some rest =>
    rw [h1] at h
    simp only [Option.some_bind] at h
    cases h2 : afterFirst '\x7d' rest.reverse with
    | none => rw [h2] at h; exact absurd h (by simp)
    | some revMid =>
      rw [h2] at h
      simp only [Option.map_some'] at h
      obtain ⟨pre, hpre, hnb⟩ := afterFirst_spec '\x7b' cs rest h1
      obtain ⟨pre2, hpre2, hnb2⟩ := afterFirst_spec '\x7d' rest.reverse revMid h2
      have hrest : rest = revMid.reverse ++ '\x7d' :: pre2.reverse := by
        have := congrArg List.reverse hpre2
        simpa using this
      have ht : '\x7b' :: (revMid.reverse ++ ['\x7d']) = t := by
        injection h
      subst ht
      refine ⟨pre, pre2.reverse, revMid.reverse, ?_, hnb, ?_, ?_⟩
      · rw [hpre, hrest]
        simp
      · simpa using hnb2
      · rfl

/-! ## Claims C4 and C7 -/

/-- Claim C4 counterexample: applying the empty patch to a concrete
original is not the identity — `git apply` rejects the hunk-less
patch file and `apply_patch_to_content` returns `None`. -/
theorem empty_patch_not_identity :
    apply_patch_to_content "line1\nline2\n" "" = none
    ∧ apply_patch_to_content "line1\nline2\n" "" ≠ some "line1\nline2\n" := by
  have h : apply_patch_to_content "line1\nline2\n" "" = none := rfl
  exact ⟨h, by rw [h]; simp⟩

/-- Claim C4 (amended): for every original text, applying an empty
patch fails: the synthesized patch file holds only the two header
lines, `git apply` rejects a patch with no hunks ("No valid patches
in input"), and `apply_patch_to_content` returns `None`. -/
theorem empty_patch_rejected (original : String) :
    apply_patch_to_content original "" = none := rfl

/-- A concrete response with two top-level JSON objects, used to
separate the greedy span from the first balanced span. -/
def twoObjResponse : String := "x \x7b\"a\": 1\x7d y \x7b\"b\": 2\x7d"

/-- Claim C7 counterexample: on a non-JSON response containing two
objects, the first balanced span parses fine — so the claimed salvage
would succeed with `{"a": 1}` — but the code's greedy first-`{`-to-
last-`}` span is not valid JSON, the salvage re-parse fails, and the
result is the outer "AI Error" report, not the salvaged object and
not the synthesized bounded-prefix Issue. -/
theorem salvage_span_is_greedy_not_balanced :
    loads twoObjResponse = none
    ∧ specFirstBalancedSpan twoObjResponse = some "\x7b\"a\": 1\x7d"
    ∧ loads "\x7b\"a\": 1\x7d" = some (.obj [("a", .num 1)])
    ∧ extractSpan twoObjResponse = some "\x7b\"a\": 1\x7d y \x7b\"b\": 2\x7d"
    ∧ loads "\x7b\"a\": 1\x7d y \x7b\"b\": 2\x7d" = none
    ∧ analyze_full_code_parse "msg" twoObjResponse = aiErrorReport "msg"
    ∧ aiErrorReport "msg" ≠ Json.obj [("a", .num 1)] := by
  refine ⟨rfl, rfl, rfl, rfl, rfl, rfl, ?_⟩
  intro h
  injection h with h1
  injection h1 with h2 h3
  injection h2 with h4 h5
  revert h4
  decide

/-- Claim C7 (amended): the response is parsed directly as JSON; on
parse failure, salvage re-parses the greedy span running from the
first `\x7b` to the last `\x7d` of the text (no brace before or after
it); if no such span exists, a single Medium-severity Issue is
synthesized whose message is the ≤ 500-character prefix of the raw
response, with recommendation "Review"; if the span exists but its
re-parse also fails, the outer handler yields the "AI Error" report
instead. -/
theorem analyze_parse_behaviour :
    (∀ em r v, loads r = some v → analyze_full_code_parse em r = v)
    ∧ (∀ em r s v, loads r = none → extractSpan r = some s → loads s = some v →
        analyze_full_code_parse em r = v)
    ∧ (∀ em r s, loads r = none → extractSpan r = some s → loads s = none →
        analyze_full_code_parse em r = aiErrorReport em)
    ∧ (∀ em r, loads r = none → extractSpan r = none →
        analyze_full_code_parse em r = fallbackReport r
        ∧ (takeChars 500 r).length ≤ 500
        ∧ ∃ rest, r.toList = (takeChars 500 r).toList ++ rest)
    ∧ (∀ r s, extractSpan r = some s →
        ∃ pre post mid,
          r.toList = pre ++ s.toList ++ post
          ∧ '\x7b' ∉ pre ∧ '\x7d' ∉ post
          ∧ s.toList = '\x7b' :: mid ++ ['\x7d']) := by
  refine ⟨?_, ?_, ?_, ?_, ?_⟩
  · intro em r v h
    unfold analyze_full_code_parse
    rw [h]
  · intro em r s v h1 h2 h3
    unfold analyze_full_code_parse
    rw [h1, h2]
    show (match loads s with
          | some v => v
          | none => aiErrorReport em) = v
    rw [h3]
  · intro em r s h1 h2 h3
    unfold analyze_full_code_parse
    rw [h1, h2]
    show (match loads s with
          | some v => v
          | none => aiErrorReport em) = aiErrorReport em
    rw [h3]
  · intro em r h1 h2
    refine ⟨?_, ?_, ?_⟩
    · unfold analyze_full_code_parse
      rw [h1, h2]
    · show (String.mk (r.toList.take 500)).length ≤ 500
      simp
    · refine ⟨r.toList.drop 500, ?_⟩
      show r.toList = (String.mk (r.toList.take 500)).toList ++ r.toList.drop 500
      simp
  · intro r s h
    unfold extractSpan at h
    cases hL : extractSpanL r.toList with
    | none => rw [hL] at h; exact absurd h (by simp)
    | some t =>
      rw [hL] at h
      simp at h
      obtain ⟨pre, post, mid, hdec, hp1, hp2, hform⟩ := extractSpanL_spec r.toList t hL
      subst h
      refine ⟨pre, post, mid, ?_, hp1, hp2, ?_⟩
      · exact hdec
      · exact hform

/-- Witness for `analyze_parse_behaviour`: a successful salvage on a
response with prose around a single object. -/
theorem analyze_parse_behaviour_witness :
    analyze_full_code_parse "e" "pre \x7b\"k\": 2\x7d"
      = Json.obj [("k", .num 2)] :=
  analyze_parse_behaviour.2.1 "e" "pre \x7b\"k\": 2\x7d" "\x7b\"k\": 2\x7d"
    (.obj [("k", .num 2)]) rfl rfl rfl

/-! ## Review pipeline (`run_multi_agent_review`, agents.py 135-254)

Collaborators are oracles: `fetch` maps a raw URL to the fetched text
(the `fetch_raw_file` wrapper around the HTTP response is embedded
separately), `applyP` is the patch applier, `lint` maps reconstructed
content and filename to the linter's issue dicts, `ai` is
`generate_content` (returning the response text or the raised
exception's message), and `em` stands for the message of whatever
exception the `except` block catches on the parse/shape paths. -/

/-- `fetch_raw_file` (agents.py 23-38) over the HTTP outcome:
`none` models a raised exception, otherwise the status code and body. -/
def fetch_raw_file (resp : Option (Nat × String)) : String :=
  match resp with
  | some (code, text) => if code = 200 then text else ""
  | none => ""

structure ChangedFile where
  filename : String
  patch : String
  raw_url : String
deriving DecidableEq, Repr

inductive PEvent where
  | fetched (url : String) (result : String) : PEvent
  | reconstructed (original : String) (patch : String) (result : Option String) : PEvent
  | lintRan (content : String) (filename : String) : PEvent
deriving DecidableEq, Repr

/-- `original_content = fetch_raw_file(raw_url) if raw_url else ""`
(line 149). -/
def origOf (fetch : String → String) (f : ChangedFile) : String :=
  if f.raw_url = "" then "" else fetch f.raw_url

/-- The per-file diff-context bounding (lines 159-160): patches longer
than 10000 characters are cut and marked. -/
def truncPatch (p : String) : String :=
  if p.length > 10000 then takeChars 10000 p ++ "\n... (truncated)" else p

/-- One file's appended diff-context segment (line 162). -/
def diffEntry (f : ChangedFile) : String :=
  "File: " ++ f.filename ++ "\nDiff:\n" ++ truncPatch f.patch ++ "\n\n"

/-- One file's lint issues: `run_linter` runs only on a truthy
reconstruction (`if reconstructed:` line 153 — both `None` and the
empty string are falsy). -/
def lintContrib (fetch : String → String) (applyP : String → String → Option String)
    (lint : String → String → List Json) (f : ChangedFile) : List Json :=
  match applyP (origOf fetch f) f.patch with
  | some c => if c = "" then [] else lint c f.filename
  | none => []

/-- The externally observable calls made for one file, in order. -/
def fileEvents (fetch : String → String) (applyP : String → String → Option String)
    (f : ChangedFile) : List PEvent :=
  (if f.raw_url = "" then [] else [.fetched f.raw_url (fetch f.raw_url)])
  ++ [.reconstructed (origOf fetch f) f.patch (applyP (origOf fetch f) f.patch)]
  ++ (match applyP (origOf fetch f) f.patch with
      | some c => if c = "" then [] else [.lintRan c f.filename]
      | none => [])

/-- The `for f in files:` loop (lines 144-162), accumulating the diff
context and the lint issues left to right. -/
def pipelineLoop (fetch : String → String) (applyP : String → String → Option String)
    (lint : String → String → List Json) :
    String × List Json × List PEvent → List ChangedFile → String × List Json × List PEvent
  | acc, [] => acc
  | acc, f :: fs =>
    pipelineLoop fetch applyP lint
      (acc.1 ++ diffEntry f,
       acc.2.1 ++ lintContrib fetch applyP lint f,
       acc.2.2 ++ fileEvents fetch applyP f)
      fs

def pipeline (fetch : String → String) (applyP : String → String → Option String)
    (lint : String → String → List Json) (files : List ChangedFile) :
    String × List Json × List PEvent :=
  pipelineLoop fetch applyP lint ("", [], []) files
/-- Text of the multi-agent review prompt before the diff context
(agents.py 164-187). -/
def reviewPromptIntro : String :=
  "\nYou are a Principal Software Architect orchestrating a Multi-Agent Code Review.\nYou have been asked to review the following code changes (Diffs).\n\n### The Agents\nYou must simulate the following four distinct expert personas. Each agent should analyze the code from their specific perspective ONLY.\n\n1.  **Logic Expert **:\n    - Focus: Correctness, business logic, race conditions, edge cases, error handling.\n    - Look for: Off-by-one errors, incorrect conditions, unhandled exceptions, wrong assumptions.\n\n2.  **Security Auditor **:\n    - Focus: Vulnerabilities, data protection, authentication, authorization.\n    - Look for: SQL injection, XSS, sensitive data exposure, missing checks, unsafe inputs.\n\n3.  **Performance Engineer **:\n    - Focus: Efficiency, scalability, resource usage.\n    - Look for: N+1 queries, expensive loops, memory leaks, unoptimized algorithms.\n\n4.  **Clean Code Reviewer **:\n    - Focus: Readability, maintainability, style, best practices.\n    - Look for: Naming conventions, function length, code duplication (DRY), SOLID principles.\n\n### The Code Changes\n"

/-- Text of the multi-agent review prompt after the diff context
(agents.py 188-212). -/
def reviewPromptOutro : String :=
  "\n\n### Output Format\nYou must output a valid JSON object with the following structure.\nIMPORTANT: Do not include markdown formatting (like ```json). Just the raw JSON.\n\n\x7b\n    \"summary\": \"A concise executive summary of the review (max 3 sentences).\",\n    \"issues\": [\n        \x7b\n            \"category\": \"Logic\",\n            \"severity\": \"Critical|High|Medium|Low\",\n            \"file\": \"filename\",\n            \"line\": <line_number_from_diff_hunk_if_possible_else_0>,\n            \"message\": \"Specific issue description.\",\n            \"suggestion\": \"Actionable fix or code snippet.\"\n        \x7d,\n        \x7b\n            \"category\": \"Security\",\n            ...\n        \x7d\n    ],\n    \"recommendation\": \"Approve | Request Changes | Comment\"\n\x7d\n"

/-- The composed review prompt (the f-string of agents.py 164-212). -/
def reviewPrompt (diffCtx : String) : String :=
  reviewPromptIntro ++ diffCtx ++ reviewPromptOutro

/-- Python `dict.get` over the parsed object's key/value list: on
duplicate keys `json.loads` keeps the last occurrence, so lookup
scans from the right. -/
def jGet (kvs : List (String × Json)) (key : String) : Option Json :=
  match kvs.reverse.find? (fun kv => kv.1 = key) with
  | some kv => some kv.2
  | none => none

def jGetD (kvs : List (String × Json)) (key : String) (d : Json) : Json :=
  (jGet kvs key).getD d

/-- ASCII lowering, as `str.lower()` on the categories in play. -/
def lowerStr (s : String) : String :=
  String.mk (s.toList.map Char.toLower)

def startsList : List Char → List Char → Bool
  | [], _ => true
  | _ :: _, [] => false
  | a :: as, b :: bs => a == b && startsList as bs

/-- Python's substring test `needle in hay`. -/
def hasSub (needle : List Char) : List Char → Bool
  | [] => needle.isEmpty
  | c :: rest => startsList needle (c :: rest) || hasSub needle rest

def pyIn (needle hay : String) : Bool :=
  hasSub needle.toList hay.toList

def secKeywords : List String :=
  ["security", "vulnerability", "auth", "injection", "xss", "safe"]

def perfKeywords : List String :=
  ["performance", "efficiency", "scalability", "memory", "speed", "optimiz"]

inductive Bucket where
  | linter | security | performance | general
deriving DecidableEq, Repr

/-- The categorization rule of agents.py 234-245: lower-case the
category, then first match wins — "lint" substring, else any security
keyword, else any performance keyword, else the general bucket. -/
def catBucket (cat : String) : Bucket :=
  let c := lowerStr cat
  if pyIn "lint" c then .linter
  else if secKeywords.any (fun k => pyIn k c) then .security
  else if perfKeywords.any (fun k => pyIn k c) then .performance
  else .general

/-- `issue.get("category", "")` followed by `.lower()`: `none` models
the `AttributeError` raised when the issue is not a dict or its
category is not a string. -/
def issueCat : Json → Option String
  | .obj kvs =>
    match jGet kvs "category" with
    | none => some ""
    | some (.str c) => some c
    | some _ => none
  | _ => none

/-- The bucket an issue's own category sends it to. -/
def bucketOfI (i : Json) : Bucket :=
  catBucket ((issueCat i).getD "")

/-- The categorization loop (agents.py 234-245); `none` models the
exception path that abandons the whole categorized result. -/
def categorizeAll : List Json → Option (List Json × List Json × List Json × List Json)
  | [] => some ([], [], [], [])
  | i :: rest =>
    match issueCat i with
    | none => none
    | some c =>
      match categorizeAll rest with
      | none => none
      | some (lb, sb, pb, gb) =>
        match catBucket c with
        | .linter => some (i :: lb, sb, pb, gb)
        | .security => some (lb, i :: sb, pb, gb)
        | .performance => some (lb, sb, i :: pb, gb)
        | .general => some (lb, sb, pb, i :: gb)

/-- `all_issues.extend(result.get("issues", []))` (line 222): a list
extends element-wise; a string or dict extends with its characters
resp. keys (which later fail in the loop as non-dict issues); a
non-iterable raises at once. -/
def aiIssuesOf (kvs : List (String × Json)) : Option (List Json) :=
  match jGet kvs "issues" with
  | none => some []
  | some (.arr l) => some l
  | some (.str s) => some (s.toList.map (fun c => Json.str (String.mk [c])))
  | some (.obj okvs) => some (okvs.map (fun kv => Json.str kv.1))
  | some _ => none

/-- The value returned to the caller, with `none` buckets modelling
keys absent from the returned dict. -/
structure Report where
  summary : Json
  recommendation : Json
  linter : Option (List Json)
  security : Option (List Json)
  performance : Option (List Json)
  issues : List Json

/-- The `except` payload of `run_multi_agent_review` (lines 249-254):
only three keys — no linter/security/performance buckets. -/
def errorReport (e : String) : Report :=
  ⟨.str "AI Error", .str "Manual Review Required", none, none, none,
   [.obj [("category", .str "System"), ("severity", .str "High"),
          ("message", .str e)]]⟩

/-- The successfully categorized report (agents.py 225-247). -/
def reviewAssemble (kvs : List (String × Json))
    (lb sb pb gb : List Json) : Report :=
  ⟨jGetD kvs "summary" (.str "Analysis complete."),
   jGetD kvs "recommendation" (.str "Review"),
   some lb, some sb, some pb, gb⟩

def reviewWithIssues (lintIssues : List Json) (em : String)
    (kvs : List (String × Json)) (ais : List Json) : Report :=
  match categorizeAll (lintIssues ++ ais) with
  | none => errorReport em
  | some (lb, sb, pb, gb) => reviewAssemble kvs lb sb pb gb

def reviewParsed (lintIssues : List Json) (em : String)
    (kvs : List (String × Json)) : Report :=
  match aiIssuesOf kvs with
  | none => errorReport em
  | some ais => reviewWithIssues lintIssues em kvs ais

/-- `result = json.loads(response_text)` and everything after it; a
non-object parse lands in the `except` handler at the first `.get`. -/
def reviewOf (lintIssues : List Json) (em : String) (resp : String) : Report :=
  match loads resp with
  | some (.obj kvs) => reviewParsed lintIssues em kvs
  | some _ => errorReport em
  | none => errorReport em

/-- `run_multi_agent_review` (agents.py 135-254). -/
def run_multi_agent_review (fetch : String → String)
    (applyP : String → String → Option String)
    (lint : String → String → List Json)
    (ai : String → Except String String) (em : String)
    (files : List ChangedFile) : Report :=
  match ai (reviewPrompt (pipeline fetch applyP lint files).1) with
  | .error e => errorReport e
  | .ok resp => reviewOf (pipeline fetch applyP lint files).2.1 em resp

/-- `str.endswith(".py")`. -/
def endsWithPy (s : String) : Bool :=
  startsList ['y', 'p', '.'] s.toList.reverse

/-- Python `str()` of the pylint fields interpolated into the lint
message (symbol/message are strings or missing in practice). -/
def pyStr : Option Json → String
  | none => "None"
  | some (.str s) => s
  | some (.num n) => toString n
  | some (.bool true) => "True"
  | some (.bool false) => "False"
  | some .null => "None"
  | some _ => ""

/-- `run_linter` (agents.py 86-129): only `.py` files are linted; the
`pylint` oracle stands for the parsed JSON array the tool printed;
each entry becomes a "Linting" issue. -/
def run_linter (pylint : String → List (List (String × Json)))
    (file_content filename : String) : List Json :=
  if endsWithPy filename then
    (pylint file_content).map (fun err =>
      .obj [("category", .str "Linting"),
            ("severity", jGetD err "type" (.str "info")),
            ("file", .str filename),
            ("line", jGetD err "line" (.num 0)),
            ("message", .str (pyStr (jGet err "symbol") ++ ": "
                              ++ pyStr (jGet err "message"))),
            ("suggestion", .str "Fix linting error")])
  else []

def joinStr : List String → String
  | [] => ""
  | x :: xs => x ++ joinStr xs

theorem joinStr_append (a b : List String) :
    joinStr (a ++ b) = joinStr a ++ joinStr b := by
  induction a with
  | nil => simp [joinStr]
  | cons x xs ih =>
    show x ++ joinStr (xs ++ b) = (x ++ joinStr xs) ++ joinStr b
    rw [ih, String.append_assoc]

/-- The loop's accumulators concatenate the per-file contributions in
file order. -/
theorem pipelineLoop_spec (fetch : String → String)
    (applyP : String → String → Option String)
    (lint : String → String → List Json) :
    ∀ (files : List ChangedFile) (acc : String × List Json × List PEvent),
      pipelineLoop fetch applyP lint acc files
        = (acc.1 ++ joinStr (files.map diffEntry),
           acc.2.1 ++ (files.map (lintContrib fetch applyP lint)).flatten,
           acc.2.2 ++ (files.map (fileEvents fetch applyP)).flatten) := by
  intro files
  induction files with
  | nil =>
    intro acc
    show acc = _
    simp [joinStr]
  | cons f fs ih =>
    intro acc
    show pipelineLoop fetch applyP lint _ fs = _
    rw [ih]
    simp [joinStr, String.append_assoc]

theorem pipeline_spec (fetch : String → String)
    (applyP : String → String → Option String)
    (lint : String → String → List Json) (files : List ChangedFile) :
    pipeline fetch applyP lint files
      = (joinStr (files.map diffEntry),
         (files.map (lintContrib fetch applyP lint)).flatten,
         (files.map (fileEvents fetch applyP)).flatten) := by
  unfold pipeline
  rw [pipelineLoop_spec]
  rfl

theorem bucket_filters_length (issues : List Json) :
    (issues.filter (fun i => bucketOfI i == Bucket.linter)).length
    + (issues.filter (fun i => bucketOfI i == Bucket.security)).length
    + (issues.filter (fun i => bucketOfI i == Bucket.performance)).length
    + (issues.filter (fun i => bucketOfI i == Bucket.general)).length
    = issues.length := by
  induction issues with
  | nil => rfl
  | cons i rest ih =>
    cases hb : bucketOfI i <;>
      simp [List.filter_cons, hb] <;> omega

/-! ## Claims C5, C6, C8, C10 -/

/-- Claim C6: the categorization loop sends each issue to the bucket
determined by its own category alone — first-match-wins,
case-insensitive substring rule ("lint" → linter; else any of the
security keywords → security; else any of the performance keywords →
performance; else general).  The buckets are exactly the filters of
the input by that per-issue rule (hence independent of the input
order), and their sizes sum to the input size: every issue lands in
exactly one bucket. -/
theorem categorize_first_match (issues : List Json)
    (h : ∀ i ∈ issues, (issueCat i).isSome = true) :
    categorizeAll issues
      = some (issues.filter (fun i => bucketOfI i == Bucket.linter),
              issues.filter (fun i => bucketOfI i == Bucket.security),
              issues.filter (fun i => bucketOfI i == Bucket.performance),
              issues.filter (fun i => bucketOfI i == Bucket.general))
    ∧ (issues.filter (fun i => bucketOfI i == Bucket.linter)).length
      + (issues.filter (fun i => bucketOfI i == Bucket.security)).length
      + (issues.filter (fun i => bucketOfI i == Bucket.performance)).length
      + (issues.filter (fun i => bucketOfI i == Bucket.general)).length
      = issues.length := by
  refine ⟨?_, bucket_filters_length issues⟩
  induction issues with
  | nil => rfl
  | cons i rest ih =>
    have hi : (issueCat i).isSome = true := h i (by simp)
    obtain ⟨c, hc⟩ := Option.isSome_iff_exists.mp hi
    have hrest := ih (fun j hj => h j (by simp [hj]))
    have hbi : bucketOfI i = catBucket c := by
      unfold bucketOfI
      rw [hc]
      rfl
    unfold categorizeAll
    rw [hc, hrest]
    cases hb : catBucket c <;>
      simp [List.filter_cons, hbi, hb]

/-- The four categorization probes: a security keyword, the spec's
"N+1 Query" (which matches no keyword), a plain style message, and a
linter issue. -/
def issueSQL : Json := .obj [("category", .str "SQL Injection Risk")]
def issueNplus : Json := .obj [("category", .str "N+1 Query")]
def issueDoc : Json := .obj [("category", .str "Missing docstring")]
def issueLint : Json := .obj [("category", .str "Linting")]

/-- Witness for `categorize_first_match`: "SQL Injection Risk" →
security, "Linting" → linter, and "N+1 Query" and "Missing docstring"
→ general issues. -/
theorem categorize_first_match_witness :
    (∀ i ∈ ([issueSQL, issueNplus, issueDoc, issueLint] : List Json),
        (issueCat i).isSome = true)
    ∧ categorizeAll [issueSQL, issueNplus, issueDoc, issueLint]
        = some ([issueLint], [issueSQL], [], [issueNplus, issueDoc]) := by
  refine ⟨by decide, ?_⟩
  rw [(categorize_first_match [issueSQL, issueNplus, issueDoc, issueLint]
        (by decide)).1]
  rfl

/-- Concrete modify-patch file used in the pipeline counterexamples:
its hunk cannot apply to an empty original. -/
def fileA : ChangedFile :=
  ⟨"f.py", "@@ -1,2 +1,2 @@\n line1\n-line2\n+line2new\n", "u"⟩

/-- Claim C5 counterexample: when generation is exhausted, the caller
gets the three-key error payload — summary "AI Error", recommendation
"Manual Review Required", a single System issue — with the
linter/security/performance buckets absent, not the full six-key
AnalysisReport shape the claim promises. -/
theorem error_report_lacks_bucket_keys :
    run_multi_agent_review (fun _ => "") apply_patch_to_content (fun _ _ => [])
        (fun _ => .error "AllProvidersExhausted") "em" []
      = errorReport "AllProvidersExhausted"
    ∧ (errorReport "AllProvidersExhausted").summary = .str "AI Error"
    ∧ (errorReport "AllProvidersExhausted").recommendation
        = .str "Manual Review Required"
    ∧ (errorReport "AllProvidersExhausted").linter = none
    ∧ (errorReport "AllProvidersExhausted").security = none
    ∧ (errorReport "AllProvidersExhausted").performance = none :=
  ⟨rfl, rfl, rfl, rfl, rfl, rfl⟩

/-- Either the three-key error payload or the full six-key success
payload: the only two shapes a caller can receive. -/
def shapeOK (R : Report) : Prop :=
  (∃ m, R = errorReport m)
  ∨ (R.linter.isSome = true ∧ R.security.isSome = true
     ∧ R.performance.isSome = true)

theorem reviewOf_shape (lintIssues : List Json) (em resp : String) :
    shapeOK (reviewOf lintIssues em resp) := by
  unfold reviewOf
  cases hld : loads resp with
  | none => exact Or.inl ⟨em, rfl⟩
  | some v =>
    cases v with
    | obj kvs =>
      show shapeOK (reviewParsed lintIssues em kvs)
      unfold reviewParsed
      cases hais : aiIssuesOf kvs with
      | none => exact Or.inl ⟨em, rfl⟩
      | some ais =>
        show shapeOK (reviewWithIssues lintIssues em kvs ais)
        unfold reviewWithIssues
        cases hcat : categorizeAll (lintIssues ++ ais) with
        | none => exact Or.inl ⟨em, rfl⟩
        | some bs =>
          obtain ⟨lb, sb, pb, gb⟩ := bs
          exact Or.inr ⟨rfl, rfl, rfl⟩
    | null => exact Or.inl ⟨em, rfl⟩
    | bool b => exact Or.inl ⟨em, rfl⟩
    | num n => exact Or.inl ⟨em, rfl⟩
    | str s => exact Or.inl ⟨em, rfl⟩
    | arr xs => exact Or.inl ⟨em, rfl⟩

/-- Claim C5 (amended): the caller always receives a `Report` value,
never an exception.  When AI generation fails, the result is the
error payload built from the exception message — summary "AI Error",
recommendation "Manual Review Required", one System issue — whose
linter/security/performance buckets are absent; every other outcome
(parse failure included, via the same error payload, or success with
all three buckets present) is one of exactly these two shapes. -/
theorem review_report_total (fetch : String → String)
    (applyP : String → String → Option String)
    (lint : String → String → List Json)
    (ai : String → Except String String) (em : String)
    (files : List ChangedFile) :
    (∀ e, ai (reviewPrompt (pipeline fetch applyP lint files).1) = .error e →
      run_multi_agent_review fetch applyP lint ai em files = errorReport e)
    ∧ shapeOK (run_multi_agent_review fetch applyP lint ai em files) := by
  constructor
  · intro e he
    unfold run_multi_agent_review
    rw [he]
  · unfold run_multi_agent_review
    cases hai : ai (reviewPrompt (pipeline fetch applyP lint files).1) with
    | error e => exact Or.inl ⟨e, rfl⟩
    | ok resp =>
      exact reviewOf_shape (pipeline fetch applyP lint files).2.1 em resp

/-- Claim C8 counterexample: for a changed file whose fetch failed
(404 → empty original), the pipeline still performs reconstruction —
the trace contains the `reconstructed` call on the empty original
(which fails for this modify patch) — rather than skipping it. -/
theorem reconstruction_attempted_on_empty_original :
    fetch_raw_file (some (404, "Not Found")) = ""
    ∧ (pipeline (fun _ => "") apply_patch_to_content (fun _ _ => []) [fileA]).2.2
        = [.fetched "u" "", .reconstructed "" fileA.patch none] :=
  ⟨rfl, rfl⟩

/-- Claim C8 (amended): a fetch that raises or returns non-200 yields
the empty string as a non-exceptional outcome; the pipeline does not
skip reconstruction on an empty original — it invokes the patch
applier on every file, the fetched (possibly empty) original
included; what a falsy reconstruction result skips is the linter. -/
theorem fetch_empty_reconstruction_still_runs :
    (fetch_raw_file none = ""
     ∧ ∀ (code : Nat) (text : String), code ≠ 200 →
         fetch_raw_file (some (code, text)) = "")
    ∧ (∀ (fetch : String → String) (applyP : String → String → Option String)
         (lint : String → String → List Json) (files : List ChangedFile),
        ∀ f ∈ files,
          PEvent.reconstructed (origOf fetch f) f.patch
              (applyP (origOf fetch f) f.patch)
            ∈ (pipeline fetch applyP lint files).2.2) := by
  constructor
  · constructor
    · rfl
    · intro code text hc
      show (if code = 200 then text else "") = ""
      rw [if_neg hc]
  · intro fetch applyP lint files f hf
    rw [pipeline_spec]
    simp only [List.mem_flatten]
    refine ⟨fileEvents fetch applyP f, ?_, ?_⟩
    · exact List.mem_map_of_mem _ hf
    · unfold fileEvents
      simp

/-- Witness for `fetch_empty_reconstruction_still_runs`: the 404 fetch
and the reconstruction event for the concrete failing file. -/
theorem fetch_empty_reconstruction_still_runs_witness :
    fetch_raw_file (some (404, "x")) = ""
    ∧ PEvent.reconstructed "" fileA.patch none
        ∈ (pipeline (fun _ => "") apply_patch_to_content (fun _ _ => [])
            [fileA]).2.2 :=
  ⟨fetch_empty_reconstruction_still_runs.1.2 404 "x" (by omega),
   fetch_empty_reconstruction_still_runs.2
     (fun _ => "") apply_patch_to_content (fun _ _ => []) [fileA] fileA (by simp)⟩

/-- Claim C10: lint issues enter the report only for files whose
reconstruction is truthy — a failed reconstruction (`None`) and a
successfully reconstructed empty file both contribute no lint issues
— while every file's (possibly truncated) diff entry is appended to
the AI context unconditionally: the context is exactly the
concatenation of all per-file entries and each file's entry occurs in
it. -/
theorem linter_gated_and_context_total (fetch : String → String)
    (applyP : String → String → Option String)
    (lint : String → String → List Json) (files : List ChangedFile) :
    (pipeline fetch applyP lint files).1 = joinStr (files.map diffEntry)
    ∧ (pipeline fetch applyP lint files).2.1
        = (files.map (lintContrib fetch applyP lint)).flatten
    ∧ (∀ f ∈ files,
        (applyP (origOf fetch f) f.patch = none
         ∨ applyP (origOf fetch f) f.patch = some "") →
        lintContrib fetch applyP lint f = [])
    ∧ (∀ f ∈ files, ∃ pre post,
        (pipeline fetch applyP lint files).1 = pre ++ diffEntry f ++ post) := by
  refine ⟨?_, ?_, ?_, ?_⟩
  · rw [pipeline_spec]
  · rw [pipeline_spec]
  · intro f _ hcase
    unfold lintContrib
    rcases hcase with hn | he
    · rw [hn]
    · rw [he]
      simp
  · intro f hf
    obtain ⟨l1, l2, hsplit⟩ := List.append_of_mem hf
    refine ⟨joinStr (l1.map diffEntry), joinStr (l2.map diffEntry), ?_⟩
    rw [pipeline_spec]
    show joinStr (files.map diffEntry) = _
    rw [hsplit]
    simp only [List.map_append, List.map_cons, joinStr_append]
    rw [String.append_assoc]
    rfl

/-- Witness for `linter_gated_and_context_total`: the failing-patch
file contributes no lint issues, yet its diff entry is in the
context. -/
theorem linter_gated_and_context_total_witness :
    lintContrib (fun _ => "") apply_patch_to_content (fun _ _ => [Json.null]) fileA = []
    ∧ ∃ pre post,
        (pipeline (fun _ => "") apply_patch_to_content (fun _ _ => [Json.null])
            [fileA]).1
          = pre ++ diffEntry fileA ++ post :=
  have h := linter_gated_and_context_total (fun _ => "")
    apply_patch_to_content (fun _ _ => [Json.null]) [fileA]
  ⟨h.2.2.1 fileA (by simp) (Or.inl rfl), h.2.2.2 fileA (by simp)⟩

/-- Witness for `review_report_total`: an exhausted generation run on
an empty file list surfaces as the error payload, not an exception. -/
theorem review_report_total_witness :
    run_multi_agent_review (fun _ => "") apply_patch_to_content (fun _ _ => [])
        (fun _ => .error "boom") "x" [] = errorReport "boom" :=
  (review_report_total (fun _ => "") apply_patch_to_content (fun _ _ => [])
      (fun _ => .error "boom") "x" []).1 "boom" rfl
